import Mathlib

/-!
Verification of the yadg tabular-extraction pipeline against its
natural-language specification.

The development shallowly embeds the two extractors under scrutiny:

* `yadg/extractors/eclab/mpt.py` — the EC-Lab `.mpt` text extractor
  (`process_header`, `process_data`, `extract`), together with the static
  column table `yadg/extractors/eclab/common/mpt_columns.py`.
* `yadg/extractors/fusion/zip.py` — the zipped-archive extractor
  (`extract`, `merge_datatrees`).

Machine strings are modelled as Lean `String` (a Python `str` is a sequence
of characters, which matches `String.data : List Char`); Python floats are
modelled as exact rationals `Rat`; fallible Python code (exceptions) is
modelled with `Except String`.  External collaborators that are not part of
the repository sources (babel numeric parsing, `datetime.strptime`, the
technique parameter catalog, `xarray.concat`, `dgutils` helpers) are
modelled from the specification and marked as such in their doc comments.
-/

/-! ## Generic helpers: Python container semantics -/

/-- Association-list lookup, mirroring Python `dict.__getitem__` /
`dict.get` on an insertion-ordered mapping with unique keys. -/
def lookupA {α : Type} (k : String) : List (String × α) → Option α
  | [] => none
  | (k2, v) :: rest => if k2 = k then some v else lookupA k rest

/-- Python `d[k] = v`: update the entry in place when the key is present,
otherwise append it, preserving insertion order. -/
def dictInsert {α : Type} (l : List (String × α)) (k : String) (v : α) :
    List (String × α) :=
  match l with
  | [] => [(k, v)]
  | (k2, w) :: rest =>
    if k2 = k then (k2, v) :: rest else (k2, w) :: dictInsert rest k v

/-- Python `d1.update(d2)`: per-key last-writer-wins, keeping the insertion
order of `d1` for shared keys and appending fresh keys of `d2`. -/
def dictUpdateS {α : Type} [DecidableEq α] (a b : List (String × α)) :
    List (String × α) :=
  a.map (fun p => (p.1, (lookupA p.1 b).getD p.2)) ++
    b.filter (fun p => lookupA p.1 a = none)

/-- Boolean character-list comparison used to model `str.startswith`. -/
def leadsWith : List Char → List Char → Bool
  | [], _ => true
  | _, [] => false
  | a :: as, b :: bs => a = b && leadsWith as bs

/-- Python `s.startswith(pre)`. -/
def pyStartsWith (pre s : String) : Bool :=
  leadsWith pre.data s.data

/-- Python `s.endswith(suf)`. -/
def pyEndsWith (suf s : String) : Bool :=
  leadsWith suf.data.reverse s.data.reverse

/-- Strip leading and trailing whitespace from a character list. -/
def trimChars (cs : List Char) : List Char :=
  ((cs.dropWhile Char.isWhitespace).reverse.dropWhile Char.isWhitespace).reverse

/-- Python `s.strip()`. -/
def pyStrip (s : String) : String :=
  ⟨trimChars s.data⟩

/-- Python `s.split(sep)` for a one-character separator: keeps empty
fields, always returns at least one element. -/
def splitCh (sep : Char) : List Char → List Char → List String
  | [], acc => [⟨acc.reverse⟩]
  | c :: rest, acc =>
    if c = sep then ⟨acc.reverse⟩ :: splitCh sep rest []
    else splitCh sep rest (c :: acc)

/-- Python `s.split(sep)` for a two-character separator (used for the
header section separator and the loop-line separator), scanning left to
right over non-overlapping occurrences. -/
def split2 (a b : Char) : List Char → List Char → List String
  | [], acc => [⟨acc.reverse⟩]
  | [x], acc => [⟨(x :: acc).reverse⟩]
  | x :: y :: rest, acc =>
    if x = a ∧ y = b then ⟨acc.reverse⟩ :: split2 a b rest []
    else split2 a b (y :: rest) (x :: acc)

/-- Python `s.split()` with no argument: split on whitespace runs,
discarding empty fields. -/
def splitWS (s : String) : List String :=
  (splitCh ' ' (s.data.map (fun c => if c.isWhitespace then ' ' else c)) []).filter
    (fun t => t ≠ "")

/-- Python `"\n".join(lines)` as a character list. -/
def joinLines (lines : List String) : List Char :=
  List.intercalate ['\n'] (lines.map String.data)

/-- Clamp a Python slice index (which may be negative) into `[0, n]`. -/
def pyClamp (n : Nat) (i : Int) : Nat :=
  if i < 0 then ((n : Int) + i).toNat else min i.toNat n

/-- Python `l[:i]` with a possibly negative bound. -/
def pySliceTo {α : Type} (l : List α) (i : Int) : List α :=
  l.take (pyClamp l.length i)

/-- Python `l[i:]` with a possibly negative bound. -/
def pySliceFrom {α : Type} (l : List α) (i : Int) : List α :=
  l.drop (pyClamp l.length i)

/-- Python `l[i]` with negative-index wrap-around; `IndexError` when out of
range. -/
def pyIndexL {α : Type} (l : List α) (i : Int) : Except String α :=
  let j : Int := if i < 0 then i + l.length else i
  if h : 0 ≤ j ∧ j < l.length then
    .ok (l.get ⟨j.toNat, by omega⟩)
  else
    .error "IndexError"

/-- Python `l[-k:]`.  Mind the `-0` pitfall: for `k = 0` the slice is
`l[0:]`, the whole list. -/
def pyTakeLast {α : Type} (k : Nat) (l : List α) : List α :=
  if k = 0 then l else l.drop (l.length - k)

/-- Python `l[:-k]`.  For `k = 0` the slice is `l[:0]`, the empty list. -/
def pyInitSlice {α : Type} (k : Nat) (l : List α) : List α :=
  if k = 0 then [] else l.take (l.length - k)

/-- Value of a list of decimal digit characters. -/
def digitsToNat (cs : List Char) : Nat :=
  cs.foldl (fun a c => a * 10 + (c.toNat - 48)) 0

/-- Python `int(s)` on a string: optional surrounding whitespace, optional
sign, one or more digits; `ValueError` otherwise. -/
def pyInt (s : String) : Except String Int :=
  let cs := trimChars s.data
  let (sign, digits) : Int × List Char :=
    match cs with
    | '-' :: rest => (-1, rest)
    | '+' :: rest => (1, rest)
    | _ => (1, cs)
  if digits ≠ [] ∧ digits.all Char.isDigit then
    .ok (sign * (digitsToNat digits : Int))
  else
    .error "ValueError"

/-- Error-propagating map, mirroring a Python loop that may raise. -/
def mapME {α β : Type} (f : α → Except String β) : List α → Except String (List β)
  | [] => .ok []
  | a :: l =>
    match f a with
    | .error e => .error e
    | .ok b =>
      match mapME f l with
      | .error e => .error e
      | .ok bs => .ok (b :: bs)

/-- Error-propagating left fold, mirroring a stateful Python loop that may
raise. -/
def foldME {σ α : Type} (f : σ → α → Except String σ) : σ → List α → Except String σ
  | s, [] => .ok s
  | s, a :: l =>
    match f s a with
    | .error e => .error e
    | .ok s2 => foldME f s2 l

/-- Python `int(x)` on a number: truncation toward zero (`Int.div` is
T-division, which truncates toward zero on the normalized fraction). -/
def ratTrunc (q : Rat) : Int :=
  q.num.tdiv (q.den : Int)

/-- Rational multiplication through `mkRat` (kernel-computable). -/
def ratMul (a b : Rat) : Rat :=
  mkRat (a.num * b.num) (a.den * b.den)

instance {ε α : Type} [DecidableEq ε] [DecidableEq α] :
    DecidableEq (Except ε α) := fun a b =>
  match a, b with
  | .error e1, .error e2 =>
    if h : e1 = e2 then isTrue (by rw [h])
    else isFalse (by intro hh; cases hh; exact h rfl)
  | .ok v1, .ok v2 =>
    if h : v1 = v2 then isTrue (by rw [h])
    else isFalse (by intro hh; cases hh; exact h rfl)
  | .error _, .ok _ => isFalse (by intro hh; cases hh)
  | .ok _, .error _ => isFalse (by intro hh; cases hh)

/-! ## Locale-aware numeric parser -/

/-- A locale is identified by its decimal and group separators (section 4.1
of the specification). -/
structure NumLocale where
  decimalSep : Char
  groupSep : Char
deriving DecidableEq, Repr

/-- The `en_US` locale: decimal point, comma grouping. -/
def en_US : NumLocale := ⟨'.', ','⟩

/-- The `de_DE` locale: decimal comma, point grouping. -/
def de_DE : NumLocale := ⟨',', '.'⟩

/-- Parse an unsigned decimal literal (digits, optional single point,
at least one digit overall). -/
def parseUnsignedDec (cs : List Char) : Option Rat :=
  let intPart := cs.takeWhile Char.isDigit
  let rest := cs.dropWhile Char.isDigit
  match rest with
  | [] => if intPart = [] then none else some (digitsToNat intPart : Rat)
  | '.' :: frac =>
    if frac.all Char.isDigit ∧ (intPart ≠ [] ∨ frac ≠ []) then
      some (mkRat
        (digitsToNat intPart * (10 : Nat) ^ frac.length + digitsToNat frac)
        ((10 : Nat) ^ frac.length))
    else none
  | _ => none

/-- Parse an optionally signed decimal literal with surrounding whitespace
tolerated. -/
def parseDecChars (cs : List Char) : Option Rat :=
  match trimChars cs with
  | '-' :: rest => (parseUnsignedDec rest).map (fun q => -q)
  | '+' :: rest => parseUnsignedDec rest
  | cs2 => parseUnsignedDec cs2

/-- Modelled from the spec: `babel.numbers.parse_decimal` (external
library, section 4.1) — remove the locale group separator, replace the
locale decimal separator with a point, and parse the result as a decimal
literal; `none` models the `NumberFormatError`/`ValueError` raised on
non-numeric input.  Exponent notation and special values are outside the
modelled scope. -/
def parse_decimal (loc : NumLocale) (s : String) : Option Rat :=
  parseDecChars
    ((s.data.filter (fun c => c ≠ loc.groupSep)).map
      (fun c => if c = loc.decimalSep then '.' else c))

/-- A parsed field value: numeric on success, string otherwise (the data
model of section 3, RawRecord entries). -/
inductive FieldVal where
  | num (q : Rat)
  | str (s : String)
deriving DecidableEq, Repr

/-- One header settings field, as parsed by `process_header` lines 104-111:
`float(parse_decimal(val))` with a `ValueError` fallback to `val.strip()`. -/
def headerField (loc : NumLocale) (s : String) : FieldVal :=
  match parse_decimal loc s with
  | some q => .num q
  | none => .str (pyStrip s)

example : parse_decimal en_US " 5.0   " = some 5 := by decide
example : parse_decimal en_US "-1.25" = some (mkRat (-5) 4) := by decide
example : parse_decimal de_DE "1.234,5" = some (mkRat 2469 2) := by decide
example : parse_decimal en_US "abc" = none := by decide
example : pyInt " 42 " = .ok 42 := by decide
example : pyInt "4.2" = .error "ValueError" := by decide
example : splitCh '\t' "a\tb\t".data [] = ["a", "b", ""] := by decide
example : split2 '\n' '\n' "a\nb\n\nc".data [] = ["a\nb", "c"] := by decide
example : splitWS "Nb header lines : 6" = ["Nb", "header", "lines", ":", "6"] := by
  decide
example : pyStrip "  x y " = "x y" := by decide
example : pyTakeLast 1 ["a", "b"] = ["b"] := by decide
example : pySliceFrom ["a", "b", "c", "d"] (-3) = ["b", "c", "d"] := by decide
example : ratTrunc (mkRat (-3) 2) = -1 := by decide

/-! ## Timestamp formats (mpt.py lines 116-127) -/

/-- The three candidate timestamp formats tried by `process_header`:
`"%m/%d/%Y %H:%M:%S"`, `"%m.%d.%Y %H:%M:%S"`, `"%m/%d/%Y %H:%M:%S.%f"`. -/
inductive TimeFmt where
  | mdySlash
  | mdyDot
  | mdySlashFrac
deriving DecidableEq, Repr

/-- Parse a run of at most `maxLen` digits whose value lies in `[lo, hi]`. -/
def parseNumTok (cs : List Char) (maxLen lo hi : Nat) : Option Nat :=
  if cs ≠ [] ∧ cs.length ≤ maxLen ∧ cs.all Char.isDigit ∧
      lo ≤ digitsToNat cs ∧ digitsToNat cs ≤ hi then
    some (digitsToNat cs)
  else none

/-- Parse `H:M:S` with the `strptime` field ranges. -/
def parseHMS (cs : List Char) : Option (Nat × Nat × Nat) :=
  match splitCh ':' cs [] with
  | [hs, ms, ss] =>
    match parseNumTok hs.data 2 0 23, parseNumTok ms.data 2 0 59,
        parseNumTok ss.data 2 0 61 with
    | some h, some m, some s => some (h, m, s)
    | _, _, _ => none
  | _ => none

/-- Parse a `month sep day sep year` date. -/
def parseMDY (sep : Char) (cs : List Char) : Option (Nat × Nat × Nat) :=
  match splitCh sep cs [] with
  | [ms, ds, ys] =>
    match parseNumTok ms.data 2 1 12, parseNumTok ds.data 2 1 31,
        parseNumTok ys.data 4 0 9999 with
    | some mo, some d, some y => some (mo, d, y)
    | _, _, _ => none
  | _ => none

/-- Injective seconds-like encoding of a parsed calendar timestamp;
calendar-to-epoch arithmetic and timezone localization are abstracted
(they do not affect any claim under scrutiny). -/
def encodeUts (y mo d h mi s : Nat) : Rat :=
  (((((((y * 12 + (mo - 1)) * 31 + (d - 1)) * 24 + h) * 60 + mi) * 60 + s
    : Nat) : Int) : Rat)

/-- Modelled from the spec: `datetime.strptime` (standard library,
section 4.2) restricted to the three candidate formats — the whole string
must match the format, otherwise the parse fails. -/
def strptimeOpt (fmt : TimeFmt) (s : String) : Option Rat :=
  match splitCh ' ' s.data [] with
  | [datePart, timePart] =>
    let sep : Char := match fmt with | .mdyDot => '.' | _ => '/'
    match parseMDY sep datePart.data with
    | none => none
    | some (mo, d, y) =>
      match fmt with
      | .mdySlashFrac =>
        match splitCh '.' timePart.data [] with
        | [hms, fs] =>
          match parseHMS hms.data with
          | some (h, mi, sec) =>
            if fs.data ≠ [] ∧ fs.data.length ≤ 6 ∧ fs.data.all Char.isDigit then
              some (encodeUts y mo d h mi sec +
                mkRat (digitsToNat fs.data) ((10 : Nat) ^ fs.data.length))
            else none
          | none => none
        | _ => none
      | _ =>
        match parseHMS timePart.data with
        | some (h, mi, sec) => some (encodeUts y mo d h mi sec)
        | none => none
  | _ => none

/-- Modelled from the spec: `dgutils.str_to_uts` (Timestamp Resolver,
section 4.2) as called with `strict=False` — returns `none` instead of
raising when the format does not match. -/
def str_to_uts (timestamp : String) (fmt : TimeFmt) : Option Rat :=
  strptimeOpt fmt timestamp

/-- The format fallback chain of `process_header`, in source order. -/
def timestampFormats : List TimeFmt := [.mdySlash, .mdyDot, .mdySlashFrac]

/-- The `for format in (...)` loop of `process_header` (mpt.py lines
120-127): first successful parse wins; `NotImplementedError` when no
format matches. -/
def parseAcqTimestamp (ts : String) : Except String Rat :=
  match timestampFormats.findSome? (fun f => str_to_uts ts f) with
  | some u => .ok u
  | none => .error "NotImplementedError: time format"

example : strptimeOpt .mdySlash "10/25/2011 10:00:00" ≠ none := by decide
example : strptimeOpt .mdySlash "10.25.2011 10:00:00" = none := by decide
example : strptimeOpt .mdyDot "10.25.2011 10:00:00" ≠ none := by decide
example : strptimeOpt .mdySlash "10/25/2011 10:00:00.5" = none := by decide
example : strptimeOpt .mdySlashFrac "10/25/2011 10:00:00.5" ≠ none := by decide

/-! ## The static column table (eclab/common/mpt_columns.py) -/

/-- The `column_units` lookup table, mapping each raw instrument column
label to a `(canonical_name, unit_or_none)` pair, transcribed entry for
entry from `mpt_columns.py`.  (In the first entry the source wraps the
canonical name Ri in single-quote characters; they are dropped here, which
affects no claim.) -/
def column_units : List (String × String × Option String) := [
  ("\"Ri\"/Ohm", ("Ri", some "Ω")),
  ("Im(C)/nF", ("Im(C)", some "nF")),
  ("Im(Conductivity)/mS/cm", ("Im(Conductivity)", some "mS/cm")),
  ("Im(M)", ("Im(M)", some "")),
  ("Im(Permittivity)", ("Im(Permittivity)", some "")),
  ("Im(Resistivity)/Ohm.cm", ("Im(Resistivity)", some "Ω·cm")),
  ("-Im(Z)/Ohm", ("-Im(Z)", some "Ω")),
  ("-Im(Zce)/Ohm", ("-Im(Zce)", some "Ω")),
  ("-Im(Zwe-ce)/Ohm", ("-Im(Zwe-ce)", some "Ω")),
  ("(Q-Qo)/C", ("(Q-Qo)", some "C")),
  ("(Q-Qo)/mA.h", ("(Q-Qo)", some "mA·h")),
  ("<Ece>/V", ("<Ece>", some "V")),
  ("<Ewe>/V", ("<Ewe>", some "V")),
  ("<I>/mA", ("<I>", some "mA")),
  ("|C|/nF", ("|C|", some "nF")),
  ("|Conductivity|/mS/cm", ("|Conductivity|", some "mS/cm")),
  ("|Ece|/V", ("|Ece|", some "V")),
  ("|Energy|/W.h", ("|Energy|", some "W·h")),
  ("|Ewe|/V", ("|Ewe|", some "V")),
  ("|I|/A", ("|I|", some "A")),
  ("|M|", ("|M|", some "")),
  ("|Permittivity|", ("|Permittivity|", some "")),
  ("|Resistivity|/Ohm.cm", ("|Resistivity|", some "Ω·cm")),
  ("|Y|/Ohm-1", ("|Y|", some "S")),
  ("|Z|/Ohm", ("|Z|", some "Ω")),
  ("|Zce|/Ohm", ("|Zce|", some "Ω")),
  ("|Zwe-ce|/Ohm", ("|Zwe-ce|", some "Ω")),
  ("Analog IN 1/V", ("Analog IN 1", some "V")),
  ("Analog IN 2/V", ("Analog IN 2", some "V")),
  ("Capacitance charge/µF", ("Capacitance charge", some "µF")),
  ("Capacitance discharge/µF", ("Capacitance discharge", some "µF")),
  ("Capacity/mA.h", ("Capacity", some "mA·h")),
  ("charge time/s", ("charge time", some "s")),
  ("Conductivity/S.cm-1", ("Conductivity", some "S/cm")),
  ("control changes", ("control changes", none)),
  ("control/mA", ("control_I", some "mA")),
  ("control/V", ("control_V", some "V")),
  ("control/V/mA", ("control_VI", some "mA")),
  ("counter inc.", ("counter inc.", none)),
  ("Cp-2/µF-2", ("Cp⁻²", some "µF⁻²")),
  ("Cp/µF", ("Cp", some "µF")),
  ("Cs-2/µF-2", ("Cs⁻²", some "µF⁻²")),
  ("Cs/µF", ("Cs", some "µF")),
  ("cycle number", ("cycle number", none)),
  ("cycle time/s", ("cycle time", some "s")),
  ("d(Q-Qo)/dE/mA.h/V", ("d(Q-Qo)/dE", some "mA·h/V")),
  ("dI/dt/mA/s", ("dI/dt", some "mA/s")),
  ("discharge time/s", ("discharge time", some "s")),
  ("dQ/C", ("dQ", some "C")),
  ("dq/mA.h", ("dq", some "mA·h")),
  ("dQ/mA.h", ("dQ", some "mA·h")),
  ("Ece/V", ("Ece", some "V")),
  ("Ecell/V", ("Ecell", some "V")),
  ("Efficiency/%", ("Efficiency", some "%")),
  ("Energy charge/W.h", ("Energy charge", some "W·h")),
  ("Energy discharge/W.h", ("Energy discharge", some "W·h")),
  ("Energy/W.h", ("Energy", some "W·h")),
  ("error", ("error", none)),
  ("Ewe-Ece/V", ("Ewe-Ece", some "V")),
  ("Ewe/V", ("Ewe", some "V")),
  ("freq/Hz", ("freq", some "Hz")),
  ("half cycle", ("half cycle", none)),
  ("I Range", ("I Range", none)),
  ("I/mA", ("I", some "mA")),
  ("Im(Y)/Ohm-1", ("Im(Y)", some "S")),
  ("Loss Angle(Delta)/deg", ("Loss Angle(Delta)", some "deg")),
  ("mode", ("mode", none)),
  ("Ns changes", ("Ns changes", none)),
  ("Ns", ("Ns", none)),
  ("NSD Ewe/%", ("NSD Ewe", some "%")),
  ("NSD I/%", ("NSD I", some "%")),
  ("NSR Ewe/%", ("NSR Ewe", some "%")),
  ("NSR I/%", ("NSR I", some "%")),
  ("ox/red", ("ox or red", none)),
  ("P/W", ("P", some "W")),
  ("Phase(C)/deg", ("Phase(C)", some "deg")),
  ("Phase(Conductivity)/deg", ("Phase(Conductivity)", some "deg")),
  ("Phase(M)/deg", ("Phase(M)", some "deg")),
  ("Phase(Permittivity)/deg", ("Phase(Permittivity)", some "deg")),
  ("Phase(Resistivity)/deg", ("Phase(Resistivity)", some "deg")),
  ("Phase(Y)/deg", ("Phase(Y)", some "deg")),
  ("Phase(Z)/deg", ("Phase(Z)", some "deg")),
  ("Phase(Zce)/deg", ("Phase(Zce)", some "deg")),
  ("Phase(Zwe-ce)/deg", ("Phase(Zwe-ce)", some "deg")),
  ("Q charge/discharge/mA.h", ("Q charge or discharge", some "mA·h")),
  ("Q charge/mA.h", ("Q charge", some "mA·h")),
  ("Q charge/mA.h/g", ("Q charge", some "mA·h/g")),
  ("Q discharge/mA.h", ("Q discharge", some "mA·h")),
  ("Q discharge/mA.h/g", ("Q discharge", some "mA·h/g")),
  ("R/Ohm", ("R", some "Ω")),
  ("Rcmp/Ohm", ("Rcmp", some "Ω")),
  ("Re(C)/nF", ("Re(C)", some "nF")),
  ("Re(Conductivity)/mS/cm", ("Re(Conductivity)", some "mS/cm")),
  ("Re(M)", ("Re(M)", some "")),
  ("Re(Permittivity)", ("Re(Permittivity)", some "")),
  ("Re(Resistivity)/Ohm.cm", ("Re(Resistivity)", some "Ω·cm")),
  ("Re(Y)/Ohm-1", ("Re(Y)", some "S")),
  ("Re(Z)/Ohm", ("Re(Z)", some "Ω")),
  ("Re(Zce)/Ohm", ("Re(Zce)", some "Ω")),
  ("Re(Zwe-ce)/Ohm", ("Re(Zwe-ce)", some "Ω")),
  ("step time/s", ("step time", some "s")),
  ("Tan(Delta)", ("Tan(Delta)", some "")),
  ("THD Ewe/%", ("THD Ewe", some "%")),
  ("THD I/%", ("THD I", some "%")),
  ("time/s", ("time", some "s")),
  ("x", ("x", none)),
  ("z cycle", ("z cycle", none))]

/-! ## Modelled technique catalog (eclab/common/techniques.py, not in src/) -/

/-- Modelled from the spec: the technique parameter catalog
(`technique_params` of `common/techniques.py`, an external collaborator per
section 4.5) — keyed by the technique name found in header section 1,
returning the technique identifier and its expected parameter key list. -/
def technique_params (technique : String) (_settings_lines : List String) :
    String × List String :=
  if technique = "Open Circuit Voltage" then
    ("OCV", ["tR", "dER/dt", "dER", "dtR", "E_range_max", "E_range_min"])
  else if technique = "Chronopotentiometry" then
    ("CP", ["Is", "vs.", "set_I/C", "ts", "E_range_max", "E_range_min",
      "I_range"])
  else
    (technique, ["unknown"])

/-- Modelled from the spec: the `I_range` enumeration table of the
technique catalog (section 4.3, enumeration decoder) — code to label. -/
def I_range_codes : List (String × Int) :=
  [("Auto", 0), ("1 A", 9), ("100 mA", 10), ("10 mA", 11), ("1 mA", 12)]

/-- Modelled from the spec: the `I_range` enumeration table — label to
numeric range value, `none` for the automatic range. -/
def I_range_values : List (String × Option Rat) :=
  [("Auto", none), ("1 A", some 1000), ("100 mA", some 100),
   ("10 mA", some 10), ("1 mA", some 1)]

/-- Modelled from the spec: `param_from_key("I_range", ival)` with
`to_str=True` — decode a numeric code into its label, `KeyError` style
failure when the code is unknown. -/
def param_from_key_code (code : Int) : Except String String :=
  match I_range_codes.find? (fun p => p.2 == code) with
  | some p => .ok p.1
  | none => .error "KeyError"

/-- Modelled from the spec: `param_from_key("I_range", Irstr, to_str=False)`
— decode a label into the numeric range value. -/
def param_from_key_value (v : FieldVal) : Except String (Option Rat) :=
  match v with
  | .str s =>
    match lookupA s I_range_values with
    | some r => .ok r
    | none => .error "KeyError"
  | .num _ => .error "KeyError"

/-- Modelled from the spec: `get_resolution` (Uncertainty Model, section
4.4) — an instrument-range-derived quantization step for columns with a
known unit.  Its exact value is irrelevant to every claim; a simple
range-over-2^16 model is used. -/
def get_resolution (_col : String) (val : Rat) (unit : String)
    (Erange : Option Rat) (Irange : Option Rat) : Rat :=
  if unit = "V" then ratMul (Erange.getD (mkRat 20 1)) (mkRat 1 65536)
  else if unit = "mA" then ratMul (Irange.getD (mkRat 1 1)) (mkRat 1 65536)
  else ratMul (if val < 0 then -val else val) (mkRat 1 1000000)

/-! ## Header processing (mpt.py `process_header`) -/

/-- Python `param[seq*20 : (seq+1)*20]`: the fixed-width 20-character field
of sequence column `seq`. -/
def sliceField (param : String) (seq : Nat) : String :=
  ⟨(param.data.drop (seq * 20)).take 20⟩

/-- The fixed-width sequence-settings slicing of `process_header` (mpt.py
lines 98-113): take the last `len(params_keys)` settings lines, compute
`n_sequences = len(params[0]) / 20`, and build one key-to-value mapping per
`seq in range(1, n_sequences)`, parsing each 20-character field with the
locale-aware parser and trimming non-numeric fields to strings. -/
def settingsParams (loc : NumLocale) (settings_lines : List String)
    (params_keys : List String) :
    Except String (List (List (String × FieldVal))) :=
  let params := pyTakeLast params_keys.length settings_lines
  match params with
  | [] => .error "IndexError"
  | p0 :: _ =>
    let n_sequences := p0.length / 20
    let params_values := (List.range' 1 (n_sequences - 1)).map (fun seq =>
      params.map (fun p => headerField loc (sliceField p seq)))
    .ok (params_values.map (fun values => params_keys.zip values))

/-- Find the first occurrence of `pat` in a character list and return the
text after it. -/
def findAfterPat (pat : List Char) : List Char → Option (List Char)
  | [] => if pat = [] then some [] else none
  | c :: rest =>
    if leadsWith pat (c :: rest) then some ((c :: rest).drop pat.length)
    else findAfterPat pat rest

/-- The regex search `re.search(r"Acquisition started on : (?P<val>.+)")`
over the newline-joined stripped settings lines: since the pattern contains
no newline and `.` does not match newlines, this is the first line
containing the pattern, captured to the end of that line (at least one
character). -/
def findAcqTimestamp (meta_lines : List String) : Option String :=
  meta_lines.findSome? (fun line =>
    match findAfterPat "Acquisition started on : ".data line.data with
    | some rest => if rest ≠ [] then some (⟨rest⟩ : String) else none
    | none => none)

/-- The settings metadata extracted by `process_header`. -/
structure MptSettings where
  posix_timestamp : Rat
  technique : String
  raw : String
deriving DecidableEq, Repr

/-- The loop-section data extracted by `process_header`. -/
structure Loops where
  n_loops : Int
  indexes : List Int
deriving DecidableEq, Repr

/-- The loop-section parse of `process_header` (mpt.py lines 129-138). -/
def parseLoops (sections : List String) : Except String (Option Loops) :=
  if sections.length ≥ 4 then
    match sections.getLast? with
    | none => .ok none
    | some lastSec =>
      if pyStartsWith "Number of loops : " lastSec then
        let loops_lines := splitCh '\n' lastSec.data []
        match pyIndexL loops_lines 0 with
        | .error e => .error e
        | .ok l0 =>
          match pyIndexL (splitCh ':' l0.data []) (-1) with
          | .error e => .error e
          | .ok nStr =>
            match pyInt nStr with
            | .error e => .error e
            | .ok n_loops =>
              match mapME (fun n =>
                  match pyIndexL loops_lines ((n : Int) + 1) with
                  | .error e => .error e
                  | .ok ll =>
                    match pyIndexL (split2 't' 'o' ll.data []) 0 with
                    | .error e => .error e
                    | .ok seg =>
                      match pyIndexL (splitWS seg) (-1) with
                      | .error e => .error e
                      | .ok tok => pyInt tok)
                  (List.range n_loops.toNat) with
              | .error e => .error e
              | .ok indexes => .ok (some { n_loops := n_loops, indexes := indexes })
      else .ok none
  else .ok none

/-- The header processor of mpt.py (`process_header`, lines 70-144):
split the header into blank-line-delimited sections, assert that a
settings section is present, slice the per-sequence parameters, parse the
acquisition timestamp with the format fallback chain, and parse the
optional loop section.  Failed Python `assert` statements and the
subscript of a failed regex match surface as errors. -/
def process_header (loc : NumLocale) (lines : List String) :
    Except String (MptSettings × List (List (String × FieldVal)) × Option Loops) :=
  let sections := split2 '\n' '\n' (joinLines lines) []
  match pyIndexL sections 1 with
  | .error e => .error e
  | .ok s1 =>
    if pyStartsWith "Number of loops : " s1 then
      .error "AssertionError: no settings present"
    else if sections.length < 3 then
      .error "AssertionError: no settings present"
    else
      match pyIndexL sections 2 with
      | .error e => .error e
      | .ok s2 =>
        let settings_lines := splitCh '\n' s2.data []
        let tp := technique_params (pyStrip s1) settings_lines
        match settingsParams loc settings_lines tp.2 with
        | .error e => .error e
        | .ok params =>
          let meta_lines := (pyInitSlice tp.2.length settings_lines).map pyStrip
          match findAcqTimestamp meta_lines with
          | none => .error "TypeError: NoneType is not subscriptable"
          | some timestamp =>
            match parseAcqTimestamp timestamp with
            | .error e => .error e
            | .ok uts =>
              match parseLoops sections with
              | .error e => .error e
              | .ok loops =>
                .ok ({ posix_timestamp := uts, technique := tp.1,
                       raw := ⟨joinLines lines⟩ }, params, loops)

/-! ## Data processing (mpt.py `process_data`) -/

/-- The column/unit assignment loop of `process_data` (mpt.py lines
174-181): look each raw name up in `column_units` (a missing entry is a
Python `KeyError`), collecting the canonical column list and the unit
dictionary. -/
def cuStep (st : List String × List (String × String)) (n : String) :
    Except String (List String × List (String × String)) :=
  match lookupA n column_units with
  | none => .error "KeyError: unknown column"
  | some (c, u) =>
    .ok (st.1 ++ [c],
      match u with
      | some uu => dictInsert st.2 c uu
      | none => st.2)

/-- See `cuStep`: the fold over the raw column names. -/
def buildCU (names : List String) :
    Except String (List String × List (String × String)) :=
  foldME cuStep ([], []) names

/-- The per-line value loop of `process_data` (mpt.py lines 186-201):
columns without a unit are parsed with `int(parse_decimal(...))` — with no
exception handler, so a parse failure raises — and the `I Range` column is
decoded through the enumeration table; columns with a unit fall back to the
stripped string when the numeric parse fails. -/
def valStep (loc : NumLocale) (units : List (String × String))
    (vals : List (String × FieldVal)) (nv : String × String) :
    Except String (List (String × FieldVal)) :=
  if (lookupA nv.1 units).isNone then
    match parse_decimal loc nv.2 with
    | none => .error "ValueError"
    | some q =>
      if nv.1 = "I Range" then
        match param_from_key_code (ratTrunc q) with
        | .error e => .error e
        | .ok s => .ok (dictInsert vals nv.1 (.str s))
      else
        .ok (dictInsert vals nv.1 (.num (ratTrunc q : Rat)))
  else
    match parse_decimal loc nv.2 with
    | some q => .ok (dictInsert vals nv.1 (.num q))
    | none => .ok (dictInsert vals nv.1 (.str (pyStrip nv.2)))

/-- See `valStep`: the fold over the `zip(columns, values)` pairs. -/
def buildVals (loc : NumLocale) (units : List (String × String))
    (pairs : List (String × String)) :
    Except String (List (String × FieldVal)) :=
  foldME (valStep loc units) [] pairs

/-- The range lookup of `process_data` (mpt.py lines 202-210): index
`Eranges`/`Iranges` by the `Ns` column when present (index 0 otherwise),
let an in-row `I Range` value override, and decode the current range. -/
def rangeStage (vals : List (String × FieldVal)) (Eranges : List (Option Rat))
    (Iranges : List FieldVal) :
    Except String (Option Rat × Option Rat) :=
  let nsIdx : Except String Int :=
    match lookupA "Ns" vals with
    | some (.num q) => .ok (ratTrunc q)
    | some (.str _) => .error "TypeError: list index"
    | none => .ok 0
  match nsIdx with
  | .error e => .error e
  | .ok i =>
    match pyIndexL Eranges i with
    | .error e => .error e
    | .ok Erange =>
      match pyIndexL Iranges i with
      | .error e => .error e
      | .ok Irstr0 =>
        let Irstr := match lookupA "I Range" vals with
          | some v => v
          | none => Irstr0
        match param_from_key_value Irstr with
        | .error e => .error e
        | .ok Irange => .ok (Erange, Irange)

/-- The `control_V_I` renaming branch of `process_data` (mpt.py lines
212-216): when a `control_V_I` key is present, rename it after the
per-sequence control type read from `controls[vals["Ns"]]` (a `KeyError`
when `Ns` is absent) and record the new unit. -/
def controlStage (vals : List (String × FieldVal))
    (units : List (String × String)) (controls : List (Option FieldVal)) :
    Except String (List (String × FieldVal) × List (String × String)) :=
  match lookupA "control_V_I" vals with
  | none => .ok (vals, units)
  | some cv =>
    match lookupA "Ns" vals with
    | none => .error "KeyError: Ns"
    | some (.str _) => .error "TypeError: list index"
    | some (.num q) =>
      match pyIndexL controls (ratTrunc q) with
      | .error e => .error e
      | .ok icvOpt =>
        let icv : String := match icvOpt with
          | some (.str s) => s
          | some (.num q2) => toString q2.num
          | none => "None"
        let name := "control_" ++ icv
        let vals2 := dictInsert
          (vals.filter (fun p => p.1 ≠ "control_V_I")) name cv
        let units2 := dictInsert units name
          (if icv = "I" ∨ icv = "C" then "mA" else "V")
        .ok (vals2, units2)

/-- The per-point uncertainty loop of `process_data` (mpt.py lines
217-222): for every column with a unit, `assert isinstance(val, float)`
(an `AssertionError` when the value fell back to a string), then derive
the resolution-based sigma. -/
def devStep (units : List (String × String)) (Erange Irange : Option Rat)
    (devs : List (String × Rat)) (cv : String × FieldVal) :
    Except String (List (String × Rat)) :=
  match lookupA cv.1 units with
  | none => .ok devs
  | some u =>
    match cv.2 with
    | .num q => .ok (dictInsert devs cv.1 (get_resolution cv.1 q u Erange Irange))
    | .str _ => .error "AssertionError: n should not be string"

/-- See `devStep`: the fold over the row values. -/
def devsStage (vals : List (String × FieldVal))
    (units : List (String × String)) (Erange Irange : Option Rat) :
    Except String (List (String × Rat)) :=
  foldME (devStep units Erange Irange) [] vals

/-- One iteration of the data-line loop of `process_data` (mpt.py lines
185-224), returning the row values, the row uncertainties and the
(possibly updated) unit dictionary. -/
def processDataLine (loc : NumLocale) (cols : List String)
    (units : List (String × String)) (Eranges : List (Option Rat))
    (Iranges : List FieldVal) (controls : List (Option FieldVal))
    (line : String) :
    Except String
      (List (String × FieldVal) × List (String × Rat) × List (String × String)) :=
  match buildVals loc units (cols.zip (splitCh '\t' line.data [])) with
  | .error e => .error e
  | .ok vals =>
    match rangeStage vals Eranges Iranges with
    | .error e => .error e
    | .ok er =>
      match controlStage vals units controls with
      | .error e => .error e
      | .ok vu =>
        match devsStage vu.1 vu.2 er.1 er.2 with
        | .error e => .error e
        | .ok devs => .ok (vu.1, devs, vu.2)

/-- The union, in first-appearance order, of the keys of all rows — the
data variables of the assembled dataset. -/
def collectCols (rows : List (List (String × FieldVal))) : List String :=
  rows.foldl (fun acc r =>
    r.foldl (fun a p => if a.contains p.1 then a else a ++ [p.1]) acc) []

/-- The assembled `xarray.Dataset` of the mpt extractor, reduced to the
observables the claims speak about: per-row value and sigma mappings, the
unit table, the `uts` coordinate and the `fulldate`/settings/params
attributes. -/
structure MptDS where
  cols : List String
  rows : List (List (String × FieldVal))
  devs : List (List (String × Rat))
  units : List (String × String)
  fulldate : Option Bool
  uts : List (Option Rat)
  settings : Option MptSettings
  params : List (List (String × FieldVal))
deriving DecidableEq, Repr

/-- One step of the accumulation loop of `process_data`: process a data
line and append the row values and uncertainties (`dgutils.append_dicts`,
outside src/, modelled from spec section 4.6), threading the unit
dictionary. -/
def dataLineStep (loc : NumLocale) (cols : List String)
    (Eranges : List (Option Rat)) (Iranges : List FieldVal)
    (controls : List (Option FieldVal))
    (st : (List (List (String × FieldVal)) × List (List (String × Rat))) ×
      List (String × String)) (line : String) :
    Except String
      ((List (List (String × FieldVal)) × List (List (String × Rat))) ×
        List (String × String)) :=
  match processDataLine loc cols st.2 Eranges Iranges controls line with
  | .error e => .error e
  | .ok out => .ok ((st.1.1 ++ [out.1], st.1.2 ++ [out.2.1]), out.2.2)

/-- The data processor of mpt.py (`process_data`, lines 147-227): read the
column names from the second line (dropping the trailing empty field of the
extra tab), process every following line, and assemble the dataset with
`dicts_to_dataset(..., fulldate=False)`.  (`append_dicts` and
`dicts_to_dataset` live in `dgutils`, outside src/; they are modelled from
spec section 4.6: rows are accumulated into a columnar structure and the
`fulldate` attribute is set to the given flag.) -/
def process_data (loc : NumLocale) (lines : List String)
    (Eranges : List (Option Rat)) (Iranges : List FieldVal)
    (controls : List (Option FieldVal)) : Except String MptDS :=
  match pyIndexL lines 1 with
  | .error e => .error e
  | .ok nameLine =>
    match buildCU ((splitCh '\t' nameLine.data []).dropLast) with
    | .error e => .error e
    | .ok cu =>
      match foldME (dataLineStep loc cu.1 Eranges Iranges controls)
          (([], []), cu.2) (lines.drop 2) with
      | .error e => .error e
      | .ok st =>
        .ok { cols := collectCols st.1.1, rows := st.1.1, devs := st.1.2,
              units := st.2, fulldate := some false, uts := [],
              settings := none, params := [] }

/-! ## The mpt `extract` entry point -/

/-- The `E_range_max - E_range_min` computation of `extract` (mpt.py lines
283-285): missing bounds default to infinities, so the difference is
infinite (`none`) unless both bounds are present numbers; a string value
makes the subtraction a Python `TypeError`. -/
def getERange (el : List (String × FieldVal)) : Except String (Option Rat) :=
  match lookupA "E_range_max" el, lookupA "E_range_min" el with
  | some (.str _), _ => .error "TypeError"
  | _, some (.str _) => .error "TypeError"
  | some (.num a), some (.num b) => .ok (some (a - b))
  | _, _ => .ok none

/-- The per-sequence control type of `extract` (mpt.py lines 287-292). -/
def getControl (el : List (String × FieldVal)) : Option FieldVal :=
  match lookupA "set_I/C" el with
  | some v => some v
  | none =>
    match lookupA "apply_I/C" el with
    | some v => some v
    | none => none

/-- The per-extraction context computed by the two branches of `extract`
(mpt.py lines 265-292): the acquisition start time, the `fulldate` flag,
the settings/params metadata and the per-sequence ranges and controls. -/
structure ExtractPrep where
  start_time : Rat
  fulldate : Bool
  settings : Option MptSettings
  params : List (List (String × FieldVal))
  Eranges : List (Option Rat)
  Iranges : List FieldVal
  ctrls : List (Option FieldVal)
deriving DecidableEq, Repr

/-- The branch on `nb_header_lines <= 3` of `extract` (mpt.py lines
268-292): with no usable header, fall back to a start time of `0.0`,
`fulldate=False`, a default 20 V E-range, an `Auto` I-range and no control
type; otherwise process the header and derive the per-sequence ranges and
controls from the parameter mappings. -/
def extractPrep (loc : NumLocale) (header_lines : List String) (nb : Int) :
    Except String ExtractPrep :=
  if nb ≤ 3 then
    .ok ⟨0, false, none, [], [some 20], [.str "Auto"], [none]⟩
  else
    match process_header loc header_lines with
    | .error e => .error e
    | .ok hp =>
      match mapME getERange hp.2.1 with
      | .error e => .error e
      | .ok ers =>
        .ok ⟨hp.1.posix_timestamp, true, some hp.1, hp.2.1, ers,
          hp.2.1.map (fun el => (lookupA "I_range" el).getD (.str "Auto")),
          hp.2.1.map getControl⟩

/-- The tail of `extract` (mpt.py lines 297-304): derive the `uts`
coordinate from the `time` column plus the start time (a single-element
axis otherwise), delete the `fulldate` attribute when a header timestamp
was found, and attach the settings/params metadata. -/
def finalizeDS (ds0 : MptDS) (pp : ExtractPrep) : MptDS :=
  let ds1 :=
    if ds0.cols.contains "time" then
      { ds0 with uts := ds0.rows.map (fun r =>
          match lookupA "time" r with
          | some (FieldVal.num q) => some (q + pp.start_time)
          | _ => none) }
    else
      { ds0 with uts := [some pp.start_time] }
  let ds2 := if pp.fulldate then { ds1 with fulldate := none } else ds1
  { ds2 with settings := pp.settings, params := pp.params }

/-- The `extract` entry point of mpt.py (lines 230-306) on the raw file
content: check the file magic, split off the declared number of header
lines, process the header when it is long enough — falling back to a start
time of `0.0`, `fulldate=False`, a default 20 V E-range, an `Auto` I-range
and no control type when `nb_header_lines <= 3` — process the data lines,
and derive the `uts` coordinate from the `time` column plus the start time
(deleting the `fulldate` attribute when a header timestamp was found). -/
def extract_mpt (content : String) (loc : NumLocale) : Except String MptDS :=
  if ¬ pyStartsWith "EC-Lab ASCII FILE\n" content then
    .error "AssertionError: invalid file magic"
  else
    match pyIndexL (splitCh '\n' (content.data.drop 18) []) 0 with
    | .error e => .error e
    | .ok l0 =>
      match pyIndexL (splitWS l0) (-1) with
      | .error e => .error e
      | .ok nbStr =>
        match pyInt nbStr with
        | .error e => .error e
        | .ok nb =>
          match extractPrep loc
              (pySliceTo (splitCh '\n' (content.data.drop 18) []) (nb - 3))
              nb with
          | .error e => .error e
          | .ok pp =>
            match process_data loc
                (pySliceFrom (splitCh '\n' (content.data.drop 18) []) (nb - 3))
                pp.Eranges pp.Iranges pp.ctrls with
            | .error e => .error e
            | .ok ds0 => .ok (finalizeDS ds0 pp)

/-! ## The fusion zip extractor (fusion/zip.py) -/

/-- An `xarray.Dataset` at a tree node, reduced to the observables of the
merge claims: the `uts` coordinate, data variables along `uts`, variables
not along `uts` (coordinates such as the category axis, subject to the
`no_conflicts` compatibility check), and attributes. -/
structure XDataset where
  uts : List Rat
  dataVars : List (String × List Rat)
  staticVars : List (String × Rat)
  attrs : List (String × String)
deriving DecidableEq, Repr

/-- Do the two datasets carry a variable of the same name, not along the
concatenation axis, with conflicting values? -/
def staticConflict (d1 d2 : XDataset) : Bool :=
  d1.staticVars.any (fun p =>
    match lookupA p.1 d2.staticVars with
    | some w => w ≠ p.2
    | none => false)

/-- Modelled from the spec: `xarray.concat([d1, d2], dim="uts",
combine_attrs="identical", coords="minimal", compat="no_conflicts")`
(external library, spec section 4.7) — attribute sets must be identical,
variables along the time axis are concatenated pairwise (the two datasets
must carry the same variable names), and variables not along the time axis
must not conflict; any violation is an `xr.MergeError`. -/
def xconcat (d1 d2 : XDataset) : Except String XDataset :=
  if d1.attrs ≠ d2.attrs then
    .error "MergeError: combine_attrs identical"
  else if d1.dataVars.map Prod.fst ≠ d2.dataVars.map Prod.fst then
    .error "MergeError: differing data variables"
  else if staticConflict d1 d2 then
    .error "MergeError: conflicting values"
  else
    .ok { uts := d1.uts ++ d2.uts,
          dataVars := d1.dataVars.map (fun p =>
            (p.1, p.2 ++ ((lookupA p.1 d2.dataVars).getD []))),
          staticVars := d1.staticVars ++
            d2.staticVars.filter (fun p => lookupA p.1 d1.staticVars = none),
          attrs := d1.attrs }

/-- A `datatree.DataTree` node: an optional dataset, node attributes, and
named children. -/
inductive DTree where
  | node : Option XDataset → List (String × String) → List (String × DTree) → DTree

/-- The dataset at the root of a tree (`dt.ds`). -/
def DTree.dsOf : DTree → Option XDataset
  | .node d _ _ => d

/-- The attributes at the root of a tree (`dt.attrs`). -/
def DTree.attrsOf : DTree → List (String × String)
  | .node _ a _ => a

/-- The children of the root of a tree (`dt.children`). -/
def DTree.childrenOf : DTree → List (String × DTree)
  | .node _ _ c => c

/-- The dataset-merging step of `merge_datatrees` (zip.py lines 81-97):
concatenate when both sides have data — an `xr.MergeError` is re-raised as
`RuntimeError` — and transfer ownership of the right dataset when the left
side has none. -/
def mergeDs : Option XDataset → Option XDataset → Except String (Option XDataset)
  | some d1, some d2 =>
    match xconcat d1 d2 with
    | .ok d => .ok (some d)
    | .error _ => .error "RuntimeError: merging datasets at node failed"
  | none, d2 => .ok d2
  | some d1, none => .ok (some d1)

mutual

/-- The recursive tree merge of zip.py (`merge_datatrees`, lines 76-106).
The Python function mutates `dt1` in place (`dt1.ds = ...`,
`dt1.attrs.update(...)`, `dt1[key] = ...`) and returns it; this embedding
returns the post-state of `dt1`, so the merge result and the state of the
first argument after the call coincide, exactly as in the source. -/
def merge_datatrees : DTree → DTree → Except String DTree
  | .node ds1 a1 c1, .node ds2 a2 c2 =>
    match mergeDs ds1 ds2 with
    | .error e => .error e
    | .ok ds =>
      match mergeChildren c1 c2 with
      | .error e => .error e
      | .ok cs => .ok (.node ds (dictUpdateS a1 a2) cs)
termination_by _ t2 => sizeOf t2

/-- The child-merging loop of `merge_datatrees` (zip.py lines 101-105):
for each child of the second tree, merge it into the matching child of the
first (updating in place) or adopt it (appending). -/
def mergeChildren : List (String × DTree) → List (String × DTree) →
    Except String (List (String × DTree))
  | c1, [] => .ok c1
  | c1, (k, t2) :: rest =>
    match lookupA k c1 with
    | some t1 =>
      match merge_datatrees t1 t2 with
      | .error e => .error e
      | .ok m => mergeChildren (dictInsert c1 k m) rest
    | none => mergeChildren (c1 ++ [(k, t2)]) rest
termination_by _ c2 => sizeOf c2

end

/-- Lexicographic code-point comparison of names, as Python compares
strings. -/
def nameLeB : List Char → List Char → Bool
  | [], _ => true
  | _ :: _, [] => false
  | a :: as, b :: bs => if a = b then nameLeB as bs else decide (a < b)

/-- Insert into a sorted list of names (ascending, stable). -/
def insortName (x : String) : List String → List String
  | [] => [x]
  | y :: ys => if nameLeB x.data y.data then x :: y :: ys else y :: insortName x ys

/-- Python `sorted(filenames)`: insertion sort by name. -/
def insortS : List String → List String
  | [] => []
  | x :: xs => insortName x (insortS xs)

/-- Python `functools.reduce(f, l)` with no initial element: left fold
seeded with the first element, a `TypeError` on an empty list. -/
def reduce1 {α : Type} (f : α → α → Except String α) :
    List α → Except String α
  | [] => .error "TypeError: reduce of empty iterable with no initial value"
  | x :: xs => foldME f x xs

/-- The archive entry of zip.py (`extract`, lines 56-74): the zip members
are modelled as a name-to-extracted-tree association (the `zipfile`
extraction, temporary directory and the per-member `fusion.json` extractor
are external to src/ and abstracted to the trees they produce, per spec
section 4.7); names ending in `fusion-data` are kept, sorted, extracted,
and folded with `merge_datatrees` through `reduce`. -/
def zip_extract (members : List (String × DTree)) : Except String DTree :=
  let filenames := (members.map Prod.fst).filter
    (fun f => pyEndsWith "fusion-data" f)
  let dt_list := (insortS filenames).filterMap (fun f => lookupA f members)
  reduce1 merge_datatrees dt_list

/-! ## Supporting lemmas on the container helpers -/

lemma lookupA_mem {α : Type} {k : String} {v : α} {l : List (String × α)}
    (h : lookupA k l = some v) : (k, v) ∈ l := by
  induction l with
  | nil => simp [lookupA] at h
  | cons p rest ih =>
    obtain ⟨k2, w⟩ := p
    rw [lookupA] at h
    split at h
    · next heq => cases h; exact heq ▸ List.mem_cons_self _ _
    · exact List.mem_cons_of_mem _ (ih h)

lemma lookupA_dictInsert_self {α : Type} (l : List (String × α)) (k : String)
    (v : α) : lookupA k (dictInsert l k v) = some v := by
  induction l with
  | nil => simp [dictInsert, lookupA]
  | cons p rest ih =>
    obtain ⟨k2, w⟩ := p
    rw [dictInsert]
    split
    · next heq => rw [lookupA]; simp [heq]
    · next hne => rw [lookupA]; simp only [if_neg hne]; exact ih

lemma lookupA_dictInsert_ne {α : Type} {l : List (String × α)} {k k2 : String}
    (v : α) (h : k2 ≠ k) : lookupA k (dictInsert l k2 v) = lookupA k l := by
  induction l with
  | nil => simp [dictInsert, lookupA, h]
  | cons p rest ih =>
    obtain ⟨k3, w⟩ := p
    rw [dictInsert]
    split
    · next heq => subst heq; simp [lookupA, h]
    · next hne =>
      by_cases hk : k3 = k
      · simp [lookupA, hk]
      · simp [lookupA, hk, ih]

lemma mem_dictInsert {α : Type} {p : String × α} {l : List (String × α)}
    {k : String} {v : α} (h : p ∈ dictInsert l k v) : p ∈ l ∨ p = (k, v) := by
  induction l with
  | nil => simp [dictInsert] at h; simp [h]
  | cons q rest ih =>
    obtain ⟨k2, w⟩ := q
    rw [dictInsert] at h
    split at h
    · next heq =>
      rcases List.mem_cons.mp h with rfl | hm
      · exact Or.inr (by rw [heq])
      · exact Or.inl (List.mem_cons_of_mem _ hm)
    · rcases List.mem_cons.mp h with rfl | hm
      · exact Or.inl (List.mem_cons_self _ _)
      · rcases ih hm with h1 | h2
        · exact Or.inl (List.mem_cons_of_mem _ h1)
        · exact Or.inr h2

lemma foldME_error_of_mem {σ α : Type} {f : σ → α → Except String σ}
    {l : List α} {a : α} (ha : a ∈ l) (hf : ∀ s, ∃ e, f s a = .error e)
    (init : σ) : ∃ e, foldME f init l = .error e := by
  induction l generalizing init with
  | nil => cases ha
  | cons x xs ih =>
    rw [foldME]
    rcases List.mem_cons.mp ha with rfl | hmem
    · obtain ⟨e, he⟩ := hf init
      rw [he]
      exact ⟨e, rfl⟩
    · cases hx : f init x with
      | error e => exact ⟨e, rfl⟩
      | ok s2 => exact ih hmem s2

/-! ## Lemmas on `xconcat` and the tree merge -/

lemma xconcat_error_of {d1 d2 : XDataset}
    (h : staticConflict d1 d2 = true ∨ d1.attrs ≠ d2.attrs) :
    ∃ e, xconcat d1 d2 = .error e := by
  unfold xconcat
  split_ifs with h1 h2 h3
  · exact ⟨_, rfl⟩
  · exact ⟨_, rfl⟩
  · exact ⟨_, rfl⟩
  · exfalso
    rcases h with hc | ha
    · exact h3 hc
    · exact h1 ha

lemma xconcat_ok_inv {d1 d2 d : XDataset} (h : xconcat d1 d2 = .ok d) :
    d1.attrs = d2.attrs ∧ staticConflict d1 d2 = false ∧
    d.uts = d1.uts ++ d2.uts ∧ d.attrs = d1.attrs := by
  unfold xconcat at h
  split_ifs at h with h1 h2 h3
  cases h
  have h3b : staticConflict d1 d2 = false := Bool.eq_false_iff.mpr h3
  exact ⟨not_not.mp h1, h3b, rfl, rfl⟩

lemma mem_insortName {x y : String} {l : List String} :
    y ∈ insortName x l ↔ y = x ∨ y ∈ l := by
  induction l with
  | nil => simp [insortName]
  | cons z zs ih =>
    rw [insortName]
    split
    · simp [List.mem_cons]
    · simp only [List.mem_cons, ih]
      tauto

/-! ## Claim C3 -/

/-- Claim C3 (corrected): `merge_datatrees` does not leave both input
trees unmutated — the Python function assigns to `dt1.ds`, updates
`dt1.attrs` and writes `dt1[key]`, so the merge result *is* the mutated
`dt1`.  Here two trees that both carry row data are merged successfully,
and the result tree differs from the first input in its root dataset,
which now holds the concatenation: the first input tree is mutated even
though neither side started empty, contradicting the claim that in-place
modification happens only by ownership transfer into an empty target. -/
theorem c3_counterexample :
    Except.map DTree.dsOf (merge_datatrees
      (.node (some ⟨[1], [("v", [10])], [], []⟩) [] [])
      (.node (some ⟨[2], [("v", [20])], [], []⟩) [] [])) =
      .ok (some ⟨[1, 2], [("v", [10, 20])], [], []⟩) ∧
    some (⟨[1, 2], [("v", [10, 20])], [], []⟩ : XDataset) ≠
      (DTree.node (some ⟨[1], [("v", [10])], [], []⟩) [] []).dsOf := by
  constructor
  · simp [merge_datatrees, mergeDs, mergeChildren, xconcat, staticConflict,
      Except.map, lookupA, DTree.dsOf]
  · decide

/-- Claim C3 (amended): `merge_datatrees` returns the post-state of its
first argument, which it mutates in every case — the result root dataset
is `mergeDs` of the two root datasets (the concatenation when both sides
have data, the adopted right-hand dataset when the left side is empty),
and the result attributes are the left attributes updated with the right
ones; the second argument is only read. -/
theorem c3_merge_left_poststate (t1 t2 r : DTree)
    (h : merge_datatrees t1 t2 = .ok r) :
    mergeDs t1.dsOf t2.dsOf = .ok r.dsOf ∧
    r.attrsOf = dictUpdateS t1.attrsOf t2.attrsOf := by
  cases t1 with | node ds1 a1 c1 =>
  cases t2 with | node ds2 a2 c2 =>
  simp only [merge_datatrees] at h
  simp only [DTree.dsOf, DTree.attrsOf]
  cases hd : mergeDs ds1 ds2 with
  | error e => rw [hd] at h; simp at h
  | ok ds =>
    rw [hd] at h
    cases hmc : mergeChildren c1 c2 with
    | error e => rw [hmc] at h; simp at h
    | ok cs =>
      rw [hmc] at h
      simp only at h
      cases h
      exact ⟨rfl, rfl⟩

/-- Witness for C3: ownership transfer into an empty left-hand side. -/
theorem c3_merge_left_poststate_witness :
    mergeDs (DTree.node none [] []).dsOf
        (DTree.node (some ⟨[5], [], [], []⟩) [] []).dsOf =
      .ok (DTree.node (some ⟨[5], [], [], []⟩) [] []).dsOf ∧
    (DTree.node (some ⟨[5], [], [], []⟩) [] []).attrsOf =
      dictUpdateS (DTree.node none [] []).attrsOf
        (DTree.node (some ⟨[5], [], [], []⟩) [] []).attrsOf :=
  c3_merge_left_poststate _ _ _
    (by simp [merge_datatrees, mergeDs, mergeChildren, dictUpdateS])

/-! ## Claim C4 -/

/-- Claim C4 (confirmed): when both sides of `merge_datatrees` carry row
data, the merge concatenates along the time axis under
`combine_attrs="identical"` — differing attributes or identically named,
conflicting non-concatenated variables make the whole merge fail with a
hard error (the `xr.MergeError` re-raised as `RuntimeError`), never a
silent overwrite; and a successful merge yields exactly the concatenated
dataset with the (identical) attributes preserved. -/
theorem c4_merge_conflict_hard_error (d1 d2 : XDataset)
    (a1 a2 : List (String × String)) (c1 c2 : List (String × DTree)) :
    ((staticConflict d1 d2 = true ∨ d1.attrs ≠ d2.attrs) →
      ∃ e, merge_datatrees (.node (some d1) a1 c1) (.node (some d2) a2 c2) =
        .error e) ∧
    (∀ r, merge_datatrees (.node (some d1) a1 c1) (.node (some d2) a2 c2) =
        .ok r →
      staticConflict d1 d2 = false ∧ d1.attrs = d2.attrs ∧
      ∃ d, xconcat d1 d2 = .ok d ∧ r.dsOf = some d ∧
        d.uts = d1.uts ++ d2.uts ∧ d.attrs = d1.attrs) := by
  constructor
  · intro h
    obtain ⟨e, he⟩ := xconcat_error_of h
    simp only [merge_datatrees, mergeDs, he]
    exact ⟨_, rfl⟩
  · intro r hr
    simp only [merge_datatrees, mergeDs] at hr
    cases hx : xconcat d1 d2 with
    | error e => rw [hx] at hr; simp at hr
    | ok d =>
      rw [hx] at hr
      cases hmc : mergeChildren c1 c2 with
      | error e => rw [hmc] at hr; simp at hr
      | ok cs =>
        rw [hmc] at hr
        simp only at hr
        cases hr
        obtain ⟨ha, hc, hu, hat⟩ := xconcat_ok_inv hx
        exact ⟨hc, ha, d, rfl, rfl, hu, hat⟩

/-- Witness for C4: two datasets with the identically named variable `s`
holding conflicting values make the merge fail hard. -/
theorem c4_merge_conflict_hard_error_witness :
    ∃ e, merge_datatrees
      (.node (some ⟨[1], [], [("s", 1)], []⟩) [] [])
      (.node (some ⟨[2], [], [("s", 2)], []⟩) [] []) = .error e :=
  (c4_merge_conflict_hard_error ⟨[1], [], [("s", 1)], []⟩
    ⟨[2], [], [("s", 2)], []⟩ [] [] [] []).1 (Or.inl (by decide))

/-! ## Claim C5 -/

/-- Claim C5 (corrected): merging two single-member archives with disjoint
time ranges does produce a row count equal to the sum, but the `uts` axis
is *not* sorted ascending in general — `xr.concat` simply appends in
member-name order.  Here member `a-fusion-data` holds time 10 and member
`b-fusion-data` holds time 5 (disjoint ranges), and the merged dataset has
`uts = [10, 5]`, which is not ascending. -/
theorem c5_counterexample :
    Except.map DTree.dsOf (zip_extract
      [("a-fusion-data", .node (some ⟨[10], [], [], []⟩) [] []),
       ("b-fusion-data", .node (some ⟨[5], [], [], []⟩) [] [])]) =
      .ok (some ⟨[10, 5], [], [], []⟩) ∧
    ¬ List.Chain' (fun x y : Rat => x ≤ y) [(10 : Rat), 5] := by
  constructor
  · simp [zip_extract, insortS, insortName, nameLeB, pyEndsWith, leadsWith,
      lookupA, reduce1, foldME, merge_datatrees, mergeDs, mergeChildren,
      xconcat, staticConflict, dictUpdateS, Except.map, DTree.dsOf]
  · intro h
    have h2 := (List.chain'_cons.mp h).1
    norm_num at h2

/-- Claim C5 (amended): for two matching members processed in sorted
member-name order, a successful merge yields a dataset whose `uts` axis is
the first member followed by the second, so the row count equals the sum
of the inputs; the axis is sorted ascending when each member is ascending
and all times of the name-wise first member precede those of the second. -/
theorem c5_rowcount_and_uts_order (n1 n2 : String)
    (a1 a2 : List (String × String)) (d1 d2 d : XDataset)
    (h1 : pyEndsWith "fusion-data" n1 = true)
    (h2 : pyEndsWith "fusion-data" n2 = true)
    (hle : nameLeB n1.data n2.data = true)
    (hne : n1 ≠ n2)
    (hc : xconcat d1 d2 = .ok d) :
    ∃ r, zip_extract [(n1, .node (some d1) a1 []), (n2, .node (some d2) a2 [])]
        = .ok r ∧
      r.dsOf = some d ∧
      d.uts = d1.uts ++ d2.uts ∧
      d.uts.length = d1.uts.length + d2.uts.length ∧
      (List.Chain' (fun x y : Rat => x ≤ y) d1.uts →
        List.Chain' (fun x y : Rat => x ≤ y) d2.uts →
        (∀ x ∈ d1.uts, ∀ y ∈ d2.uts, x ≤ y) →
        List.Chain' (fun x y : Rat => x ≤ y) d.uts) := by
  obtain ⟨ha, hcf, hu, hat⟩ := xconcat_ok_inv hc
  have hz : zip_extract
      [(n1, .node (some d1) a1 []), (n2, .node (some d2) a2 [])]
      = .ok (.node (some d) (dictUpdateS a1 a2) []) := by
    simp only [zip_extract, List.map, List.filter, h1, h2, insortS, insortName,
      hle, if_true, List.filterMap, lookupA, if_pos rfl, reduce1, foldME]
    rw [if_neg hne]
    simp only [foldME, merge_datatrees, mergeDs, hc, mergeChildren]
  refine ⟨_, hz, rfl, hu, ?_, ?_⟩
  · rw [hu]
    exact List.length_append _ _
  · intro hs1 hs2 hall
    rw [hu, List.chain'_append]
    refine ⟨hs1, hs2, ?_⟩
    intro x hx y hy
    exact hall x (List.mem_of_mem_getLast? hx) y (List.mem_of_mem_head? hy)

/-- Witness for C5: two one-row members in matching name and time order. -/
theorem c5_rowcount_and_uts_order_witness :
    ∃ r, zip_extract
        [("a-fusion-data", .node (some ⟨[1], [("v", [3])], [], []⟩) [] []),
         ("b-fusion-data", .node (some ⟨[2], [("v", [4])], [], []⟩) [] [])]
        = .ok r ∧
      r.dsOf = some (⟨[1, 2], [("v", [3, 4])], [], []⟩ : XDataset) ∧
      (⟨[1, 2], [("v", [3, 4])], [], []⟩ : XDataset).uts =
        [(1 : Rat)] ++ [(2 : Rat)] ∧
      (⟨[1, 2], [("v", [3, 4])], [], []⟩ : XDataset).uts.length =
        [(1 : Rat)].length + [(2 : Rat)].length ∧
      (List.Chain' (fun x y : Rat => x ≤ y) [(1 : Rat)] →
        List.Chain' (fun x y : Rat => x ≤ y) [(2 : Rat)] →
        (∀ x ∈ [(1 : Rat)], ∀ y ∈ [(2 : Rat)], x ≤ y) →
        List.Chain' (fun x y : Rat => x ≤ y)
          (⟨[1, 2], [("v", [3, 4])], [], []⟩ : XDataset).uts) :=
  c5_rowcount_and_uts_order "a-fusion-data" "b-fusion-data" [] []
    ⟨[1], [("v", [3])], [], []⟩ ⟨[2], [("v", [4])], [], []⟩
    ⟨[1, 2], [("v", [3, 4])], [], []⟩
    (by decide) (by decide) (by decide) (by decide) (by decide)

/-! ## Claim C9 -/

/-- Claim C9 (confirmed): a zip archive with no member name ending in
`fusion-data` makes the archive extract fail — `functools.reduce` over the
empty merged-tree list has no initial element and raises `TypeError` — and
a successful extract implies at least one matching member. -/
theorem c9_empty_archive_raises (members : List (String × DTree)) :
    (((members.map Prod.fst).all (fun f => ! pyEndsWith "fusion-data" f)) =
        true →
      ∃ e, zip_extract members = .error e) ∧
    (∀ r, zip_extract members = .ok r →
      ∃ f, f ∈ members.map Prod.fst ∧ pyEndsWith "fusion-data" f = true) := by
  constructor
  · intro hall
    have hfil : (members.map Prod.fst).filter
        (fun f => pyEndsWith "fusion-data" f) = [] := by
      rw [List.filter_eq_nil_iff]
      intro a ha
      have h2 := List.all_eq_true.mp hall a ha
      simp only [Bool.not_eq_true'] at h2
      simp [h2]
    unfold zip_extract
    rw [hfil]
    exact ⟨_, rfl⟩
  · intro r hr
    by_cases hfil : (members.map Prod.fst).filter
        (fun f => pyEndsWith "fusion-data" f) = []
    · exfalso
      unfold zip_extract at hr
      rw [hfil] at hr
      simp [insortS, reduce1] at hr
    · obtain ⟨f, hf⟩ := List.exists_mem_of_ne_nil _ hfil
      have h2 := List.mem_filter.mp hf
      exact ⟨f, h2.1, h2.2⟩

/-- Witness for C9: a single non-matching member raises. -/
theorem c9_empty_archive_raises_witness :
    ∃ e, zip_extract [("a.txt", DTree.node none [] [])] = .error e :=
  (c9_empty_archive_raises [("a.txt", DTree.node none [] [])]).1 (by decide)

/-! ## Claim C8 -/

/-- Claim C8 (confirmed): `process_header` parses the acquisition
timestamp by trying the three candidate formats `%m/%d/%Y %H:%M:%S`,
`%m.%d.%Y %H:%M:%S` and `%m/%d/%Y %H:%M:%S.%f` in order, the first
successful parse winning, and raises a hard `NotImplementedError` when
none of them matches. -/
theorem c8_timestamp_format_chain (ts : String) :
    (∀ u, strptimeOpt .mdySlash ts = some u → parseAcqTimestamp ts = .ok u) ∧
    (strptimeOpt .mdySlash ts = none →
      ∀ u, strptimeOpt .mdyDot ts = some u → parseAcqTimestamp ts = .ok u) ∧
    (strptimeOpt .mdySlash ts = none → strptimeOpt .mdyDot ts = none →
      ∀ u, strptimeOpt .mdySlashFrac ts = some u →
        parseAcqTimestamp ts = .ok u) ∧
    (strptimeOpt .mdySlash ts = none → strptimeOpt .mdyDot ts = none →
      strptimeOpt .mdySlashFrac ts = none →
      parseAcqTimestamp ts = .error "NotImplementedError: time format") := by
  unfold parseAcqTimestamp timestampFormats str_to_uts
  refine ⟨?_, ?_, ?_, ?_⟩ <;> intros <;> simp_all [List.findSome?]

/-- Witness for C8: a timestamp in the first candidate format. -/
theorem c8_timestamp_format_chain_witness :
    parseAcqTimestamp "10/25/2011 10:00:00" = .ok 64661364000 :=
  (c8_timestamp_format_chain "10/25/2011 10:00:00").1 64661364000 (by decide)

/-! ## Lemmas on the extract pipeline -/

lemma process_data_attrs {loc : NumLocale} {lines : List String}
    {Er : List (Option Rat)} {Ir : List FieldVal} {ct : List (Option FieldVal)}
    {ds : MptDS} (h : process_data loc lines Er Ir ct = .ok ds) :
    ds.fulldate = some false ∧ ds.settings = none := by
  unfold process_data at h
  repeat' split at h
  all_goals cases h
  exact ⟨rfl, rfl⟩

lemma finalizeDS_fulldate (ds0 : MptDS) (pp : ExtractPrep) :
    (finalizeDS ds0 pp).fulldate =
      (if pp.fulldate then none else ds0.fulldate) := by
  unfold finalizeDS
  split <;> split <;> simp

lemma finalizeDS_settings (ds0 : MptDS) (pp : ExtractPrep) :
    (finalizeDS ds0 pp).settings = pp.settings := by
  unfold finalizeDS
  split <;> split <;> simp

lemma extractPrep_inv {loc : NumLocale} {hl : List String} {nb : Int}
    {pp : ExtractPrep} (h : extractPrep loc hl nb = .ok pp) :
    (pp.fulldate = false ∧ pp.settings = none) ∨
    (pp.fulldate = true ∧ ∃ s, pp.settings = some s) := by
  unfold extractPrep at h
  repeat' split at h
  all_goals cases h
  · exact Or.inl ⟨rfl, rfl⟩
  · exact Or.inr ⟨rfl, _, rfl⟩

/-! ## Claim C1 -/

/-- A file whose header (6 declared header lines) consists only of a loop
section: the spec expects a fallback to default ranges and
modification-time timestamps. -/
def c1loopOnlyInput : String :=
  "EC-Lab ASCII FILE\nNb header lines : 6\n\nNumber of loops : 1\nLoop 0 from point number 0 to 10\n\nmode\t\n1"

/-- A file with no header at all (`Nb header lines : 0`). -/
def c1noHeaderInput : String :=
  "EC-Lab ASCII FILE\nNb header lines : 0\n\nmode\t\n1"

/-- The dataset produced for `c1noHeaderInput`: start time `0.0`,
`fulldate=False`, no settings. -/
def c1noHeaderDS : MptDS :=
  { cols := ["mode"], rows := [[("mode", FieldVal.num 1)]], devs := [[]],
    units := [], fulldate := some false, uts := [some 0], settings := none,
    params := [] }

/-- Claim C1 (code_bug): the module docstring promises that without a
header the timestamps are calculated from the file `mtime()`, and the
comment in `process_header` acknowledges that a header may hold only a
loop section — yet (first conjunct) a file whose declared header-line
count exceeds 3 but whose header holds only a loop section makes
`process_header` fail its `assert` (mpt.py line 92), which nothing in
`extract` catches, so the whole extraction fails instead of falling back;
and (second conjunct) in the `nb_header_lines <= 3` fallback the start
time is the constant `0.0` (mpt.py line 270) — the file modification time
is never read — so the returned `uts` axis is `[0.0]`, not
mtime-derived. -/
theorem c1_no_settings_fallback_divergence :
    extract_mpt c1loopOnlyInput en_US =
      .error "AssertionError: no settings present" ∧
    extract_mpt c1noHeaderInput en_US = .ok c1noHeaderDS := by
  constructor
  · decide
  · decide

/-! ## Claim C7 -/

/-- A complete file with a usable header establishing the calendar
timestamp 10/25/2011 10:00:00. -/
def c7headerInput : String :=
  "EC-Lab ASCII FILE\nNb header lines : 14\n\nOpen Circuit Voltage\n\nAcquisition started on : 10/25/2011 10:00:00\ntR                  5.0                 \ndER/dt              1.0                 \ndER                 0.0                 \ndtR                 1.0                 \nE_range_max         5.0                 \nE_range_min         -5.0                \n\nmode\ttime/s\tEwe/V\t\n2\t0.0\t1.0"

set_option maxRecDepth 100000 in
/-- Claim C7 (corrected): on a file whose header establishes a genuine
calendar timestamp, the returned dataset carries *no* `fulldate`
attribute (it was deleted), and in particular the attribute is not
`True` — the extractor never sets `fulldate` to `True`, refuting the
claim that it "is True once a genuine calendar timestamp is
established". -/
theorem c7_counterexample :
    Except.map (fun ds => (ds.fulldate, ds.settings.isSome))
      (extract_mpt c7headerInput en_US) = .ok (none, true) ∧
    (none : Option Bool) ≠ some true := by
  constructor
  · decide
  · decide

/-- Claim C7 (amended): the `fulldate` attribute of the dataset returned
by `extract` is `False` exactly when the timestamps are relative (no
usable header, hence no settings metadata), and is absent (cleared)
exactly when an absolute acquisition start time was established; it is
never `True`. -/
theorem c7_fulldate_attr (content : String) (loc : NumLocale) (ds : MptDS)
    (h : extract_mpt content loc = .ok ds) :
    (ds.fulldate = some false ∨ ds.fulldate = none) ∧
    (ds.fulldate = some false ↔ ds.settings = none) := by
  unfold extract_mpt at h
  repeat' split at h
  all_goals try cases h
  next hprep hpd ds0 hproc =>
  rw [finalizeDS_fulldate, finalizeDS_settings]
  rcases extractPrep_inv hprep with ⟨hf, hs⟩ | ⟨hf, s, hs⟩
  · obtain ⟨h1, _⟩ := process_data_attrs hproc
    simp [hf, hs, h1]
  · simp [hf, hs]

/-- Witness for C7: the no-header fallback file. -/
theorem c7_fulldate_attr_witness :
    (c1noHeaderDS.fulldate = some false ∨ c1noHeaderDS.fulldate = none) ∧
    (c1noHeaderDS.fulldate = some false ↔ c1noHeaderDS.settings = none) :=
  c7_fulldate_attr c1noHeaderInput en_US c1noHeaderDS (by decide)

/-! ## Claim C2 -/

lemma pyTakeLast_length {α : Type} {k : Nat} {l : List α} (hk : k ≠ 0)
    (hle : k ≤ l.length) : (pyTakeLast k l).length = k := by
  unfold pyTakeLast
  rw [if_neg hk, List.length_drop]
  omega

/-- A run of `n` spaces. -/
def spaces (n : Nat) : String :=
  ⟨List.replicate n ' '⟩

/-- A 40-character settings line: the 20-character label field `Ns`
followed by one 20-character sequence field holding `0`. -/
def c2line : String :=
  "Ns" ++ spaces 18 ++ "0" ++ spaces 19

/-- Claim C2 (corrected): a parameter line of total width 40 (= 2 fields of
20 characters) yields exactly *one* parameter mapping, not `40 / 20 = 2`:
the first 20-character field holds the parameter label, and the
`for seq in range(1, n_sequences)` loop of `process_header` skips it, so
the number of mappings is the field count minus one, refuting "sequence
count = total width / 20" combined with "one parameter mapping per
sequence". -/
theorem c2_counterexample :
    settingsParams en_US [c2line] ["Ns"] = .ok [[("Ns", FieldVal.num 0)]] ∧
    ([[("Ns", FieldVal.num 0)]] : List (List (String × FieldVal))).length ≠
      c2line.length / 20 := by
  constructor
  · decide
  · decide

/-- Claim C2 (amended): for a settings block whose parameter lines are the
last `len(params_keys)` lines, `process_header` produces
`width / 20 - 1` parameter mappings — one per hardware sequence, the
first 20-character field being the label column — each keyed exactly by
the catalog parameter keys, every field parsed numerically with
non-numeric remainders trimmed to strings. -/
theorem c2_sequence_param_mappings (loc : NumLocale) (sl pk : List String)
    (res : List (List (String × FieldVal)))
    (hk : pk ≠ []) (hlen : pk.length ≤ sl.length)
    (h : settingsParams loc sl pk = .ok res) :
    ∃ p0 rest, pyTakeLast pk.length sl = p0 :: rest ∧
      res.length = p0.length / 20 - 1 ∧
      ∀ m ∈ res, m.map Prod.fst = pk ∧
        ∀ kv ∈ m, (∃ q, kv.2 = FieldVal.num q) ∨
          (∃ s, kv.2 = FieldVal.str (pyStrip s)) := by
  have hk0 : pk.length ≠ 0 := fun hh => hk (List.length_eq_zero.mp hh)
  have hplen : (pyTakeLast pk.length sl).length = pk.length :=
    pyTakeLast_length hk0 hlen
  unfold settingsParams at h
  cases hp : pyTakeLast pk.length sl with
  | nil => rw [hp] at hplen; exact absurd hplen.symm hk0
  | cons p0 rest =>
    rw [hp] at h
    simp only at h
    cases h
    refine ⟨p0, rest, rfl, ?_, ?_⟩
    · simp [List.length_map, List.length_range']
    · intro m hm
      rw [List.map_map] at hm
      obtain ⟨seq, hseq, hmeq⟩ := List.mem_map.mp hm
      have hvlen : ((p0 :: rest).map
          (fun p => headerField loc (sliceField p seq))).length = pk.length := by
        rw [List.length_map, ← hp, hplen]
      constructor
      · rw [← hmeq]
        exact List.map_fst_zip _ _ (le_of_eq hvlen.symm)
      · intro kv hkv
        obtain ⟨k, v⟩ := kv
        rw [← hmeq] at hkv
        have hv := (List.of_mem_zip hkv).2
        obtain ⟨p, hpmem, hpeq⟩ := List.mem_map.mp hv
        simp only
        unfold headerField at hpeq
        cases hpd : parse_decimal loc (sliceField p seq) with
        | some q => rw [hpd] at hpeq; exact Or.inl ⟨q, hpeq.symm⟩
        | none => rw [hpd] at hpeq; exact Or.inr ⟨sliceField p seq, hpeq.symm⟩

/-- Witness for C2: the two-field settings line of the counterexample
yields one mapping, keyed by `Ns`. -/
theorem c2_sequence_param_mappings_witness :
    ∃ p0 rest, pyTakeLast (["Ns"] : List String).length [c2line] = p0 :: rest ∧
      ([[("Ns", FieldVal.num 0)]] : List (List (String × FieldVal))).length =
        p0.length / 20 - 1 ∧
      ∀ m ∈ ([[("Ns", FieldVal.num 0)]] : List (List (String × FieldVal))),
        m.map Prod.fst = ["Ns"] ∧
        ∀ kv ∈ m, (∃ q, kv.2 = FieldVal.num q) ∨
          (∃ s, kv.2 = FieldVal.str (pyStrip s)) :=
  c2_sequence_param_mappings en_US [c2line] ["Ns"] [[("Ns", FieldVal.num 0)]]
    (by decide) (by decide) (by decide)

/-! ## Lemmas on the data-line processing -/

lemma zip_map_fst {α β : Type} :
    ∀ (l1 : List α) (l2 : List β), (l1.zip l2).map Prod.fst = l1.take l2.length
  | [], _ => by simp
  | _ :: _, [] => by simp
  | a :: l1, b :: l2 => by simp [zip_map_fst l1 l2]

lemma column_units_no_control_V_I :
    ∀ p ∈ column_units, p.2.1 ≠ "control_V_I" := by decide

lemma column_units_control_VI_unit :
    ∀ p ∈ column_units, p.2.1 = "control_VI" → p.2.2 = some "mA" := by decide

lemma controlStage_id {vals : List (String × FieldVal)}
    {units : List (String × String)} {ct : List (Option FieldVal)}
    (h : lookupA "control_V_I" vals = none) :
    controlStage vals units ct = .ok (vals, units) := by
  unfold controlStage
  rw [h]

lemma valStep_error_unitless {loc : NumLocale} {units : List (String × String)}
    {c v : String} (hu : lookupA c units = none)
    (hp : parse_decimal loc v = none) (s : List (String × FieldVal)) :
    ∃ e, valStep loc units s (c, v) = .error e := by
  unfold valStep
  simp only [hu, Option.isNone_none, if_true, hp]
  exact ⟨_, rfl⟩

lemma valStep_shape {loc : NumLocale} {units : List (String × String)}
    {s s2 : List (String × FieldVal)} {nv : String × String}
    (h : valStep loc units s nv = .ok s2) :
    ∃ x, s2 = dictInsert s nv.1 x := by
  unfold valStep at h
  split at h
  · split at h
    · cases h
    · split at h
      · split at h
        · cases h
        · cases h; exact ⟨_, rfl⟩
      · cases h; exact ⟨_, rfl⟩
  · split at h
    · cases h; exact ⟨_, rfl⟩
    · cases h; exact ⟨_, rfl⟩

lemma valStep_unitful_str {loc : NumLocale} {units : List (String × String)}
    {c v u : String} (hu : lookupA c units = some u)
    (hp : parse_decimal loc v = none) (s : List (String × FieldVal)) :
    valStep loc units s (c, v) = .ok (dictInsert s c (.str (pyStrip v))) := by
  unfold valStep
  simp only [hu, Option.isNone_some, if_false, hp]
  rfl

lemma foldME_valStep_preserve {loc : NumLocale} {units : List (String × String)}
    {c : String} :
    ∀ {pairs : List (String × String)} {init vals : List (String × FieldVal)},
    foldME (valStep loc units) init pairs = .ok vals →
    (∀ p ∈ pairs, p.1 ≠ c) → lookupA c vals = lookupA c init
  | [], init, vals, h, _ => by
    rw [foldME] at h
    cases h
    rfl
  | p :: rest, init, vals, h, hne => by
    rw [foldME] at h
    cases hst : valStep loc units init p with
    | error e => rw [hst] at h; cases h
    | ok s1 =>
      rw [hst] at h
      obtain ⟨x, hx⟩ := valStep_shape hst
      have h1 := foldME_valStep_preserve h
        (fun q hq => hne q (List.mem_cons_of_mem _ hq))
      rw [h1, hx, lookupA_dictInsert_ne _ (hne p (List.mem_cons_self _ _))]

lemma foldME_valStep_found {loc : NumLocale} {units : List (String × String)}
    {c v u : String} :
    ∀ {pairs : List (String × String)} {init vals : List (String × FieldVal)},
    foldME (valStep loc units) init pairs = .ok vals →
    (c, v) ∈ pairs → (pairs.map Prod.fst).Nodup →
    lookupA c units = some u → parse_decimal loc v = none →
    lookupA c vals = some (.str (pyStrip v))
  | [], init, vals, _, hmem, _, _, _ => absurd hmem (List.not_mem_nil _)
  | p :: rest, init, vals, h, hmem, hnd, hu, hp => by
    rw [foldME] at h
    cases hst : valStep loc units init p with
    | error e => rw [hst] at h; cases h
    | ok s1 =>
      rw [hst] at h
      rcases List.mem_cons.mp hmem with heq | hmem2
      · subst heq
        have hs1 : s1 = dictInsert init c (.str (pyStrip v)) := by
          have h2 := valStep_unitful_str hu hp init
          rw [h2] at hst
          exact (Except.ok.inj hst).symm
        have hnotin : ∀ q ∈ rest, q.1 ≠ c := by
          intro q hq hqc
          have h3 := (List.nodup_cons.mp hnd).1
          have hmm : q.1 ∈ rest.map Prod.fst := List.mem_map_of_mem Prod.fst hq
          rw [hqc] at hmm
          exact h3 hmm
        rw [foldME_valStep_preserve h hnotin, hs1, lookupA_dictInsert_self]
      · exact foldME_valStep_found h hmem2 (List.nodup_cons.mp hnd).2 hu hp

lemma devsStage_error_of_str {vals : List (String × FieldVal)}
    {units : List (String × String)} {Er Ir : Option Rat} {c s u : String}
    (hmem : (c, FieldVal.str s) ∈ vals) (hu : lookupA c units = some u) :
    ∃ e, devsStage vals units Er Ir = .error e := by
  unfold devsStage
  refine foldME_error_of_mem hmem (fun init => ?_) []
  unfold devStep
  simp only [hu]
  exact ⟨_, rfl⟩

lemma cuFold_inv :
    ∀ {names : List String} {st0 st : List String × List (String × String)},
    foldME cuStep st0 names = .ok st →
    (∀ c ∈ st0.1, ∃ rcu ∈ column_units, rcu.2.1 = c) →
    (∀ p ∈ st0.2, ∃ rcu ∈ column_units, rcu.2 = (p.1, some p.2)) →
    (∀ c ∈ st.1, ∃ rcu ∈ column_units, rcu.2.1 = c) ∧
    (∀ p ∈ st.2, ∃ rcu ∈ column_units, rcu.2 = (p.1, some p.2))
  | [], st0, st, h, h1, h2 => by
    rw [foldME] at h
    cases h
    exact ⟨h1, h2⟩
  | n :: ns, st0, st, h, h1, h2 => by
    rw [foldME] at h
    cases hcs : cuStep st0 n with
    | error e => rw [hcs] at h; cases h
    | ok st1 =>
      rw [hcs] at h
      unfold cuStep at hcs
      cases hlk : lookupA n column_units with
      | none => rw [hlk] at hcs; cases hcs
      | some cu =>
        rw [hlk] at hcs
        obtain ⟨c, u⟩ := cu
        have htab : (n, (c, u)) ∈ column_units := lookupA_mem hlk
        simp only at hcs
        cases hcs
        refine cuFold_inv h ?_ ?_
        · intro c2 hc2
          rcases List.mem_append.mp hc2 with hin | hin
          · exact h1 c2 hin
          · rcases List.mem_singleton.mp hin with rfl
            exact ⟨(n, (c2, u)), htab, rfl⟩
        · intro p hp
          cases u with
          | some uu =>
            rcases mem_dictInsert hp with hin | heq
            · exact h2 p hin
            · subst heq
              exact ⟨(n, (c, some uu)), htab, rfl⟩
          | none => exact h2 p hp

lemma buildCU_inv {names cols : List String} {units : List (String × String)}
    (h : buildCU names = .ok (cols, units)) :
    (∀ c ∈ cols, ∃ rcu ∈ column_units, rcu.2.1 = c) ∧
    (∀ p ∈ units, ∃ rcu ∈ column_units, rcu.2 = (p.1, some p.2)) := by
  unfold buildCU at h
  exact cuFold_inv h (by simp) (by simp)

lemma processDataLine_no_control {loc : NumLocale} {cols : List String}
    {units : List (String × String)} {Er : List (Option Rat)}
    {Ir : List FieldVal} {ct : List (Option FieldVal)} {line : String}
    {out : List (String × FieldVal) × List (String × Rat) ×
      List (String × String)}
    (hcols : ∀ c ∈ cols, c ≠ "control_V_I")
    (h : processDataLine loc cols units Er Ir ct line = .ok out) :
    out.2.2 = units ∧ lookupA "control_V_I" out.1 = none := by
  unfold processDataLine at h
  cases hbv : buildVals loc units (cols.zip (splitCh '\t' line.data [])) with
  | error e => rw [hbv] at h; cases h
  | ok vals =>
    rw [hbv] at h
    simp only at h
    have hnone : lookupA "control_V_I" vals = none := by
      unfold buildVals at hbv
      rw [foldME_valStep_preserve hbv
        (fun p hp => hcols p.1 (List.of_mem_zip hp).1)]
      rfl
    cases hrs : rangeStage vals Er Ir with
    | error e => rw [hrs] at h; cases h
    | ok er =>
      rw [hrs] at h
      simp only at h
      rw [controlStage_id hnone] at h
      simp only at h
      cases hds : devsStage vals units er.1 er.2 with
      | error e => rw [hds] at h; cases h
      | ok devs =>
        rw [hds] at h
        simp only at h
        cases h
        exact ⟨rfl, hnone⟩

lemma dataFold_inv {loc : NumLocale} {cols : List String}
    {Er : List (Option Rat)} {Ir : List FieldVal} {ct : List (Option FieldVal)}
    (hcols : ∀ c ∈ cols, c ≠ "control_V_I") :
    ∀ {lines : List String}
      {st0 st : (List (List (String × FieldVal)) ×
        List (List (String × Rat))) × List (String × String)},
    foldME (dataLineStep loc cols Er Ir ct) st0 lines = .ok st →
    (∀ p ∈ st0.2, ∃ rcu ∈ column_units, rcu.2 = (p.1, some p.2)) →
    (∀ row ∈ st0.1.1, lookupA "control_V_I" row = none) →
    (∀ p ∈ st.2, ∃ rcu ∈ column_units, rcu.2 = (p.1, some p.2)) ∧
    (∀ row ∈ st.1.1, lookupA "control_V_I" row = none)
  | [], st0, st, h, hu, hr => by
    rw [foldME] at h
    cases h
    exact ⟨hu, hr⟩
  | line :: rest, st0, st, h, hu, hr => by
    rw [foldME] at h
    cases hds : dataLineStep loc cols Er Ir ct st0 line with
    | error e => rw [hds] at h; cases h
    | ok st1 =>
      rw [hds] at h
      unfold dataLineStep at hds
      cases hpl : processDataLine loc cols st0.2 Er Ir ct line with
      | error e => rw [hpl] at hds; cases hds
      | ok out =>
        rw [hpl] at hds
        simp only at hds
        cases hds
        obtain ⟨hueq, hnone⟩ := processDataLine_no_control hcols hpl
        refine dataFold_inv hcols h ?_ ?_
        · intro p hp
          exact hu p (hueq ▸ hp)
        · intro row hrow
          rcases List.mem_append.mp hrow with hin | hin
          · exact hr row hin
          · rcases List.mem_singleton.mp hin with rfl
            exact hnone

/-! ## Claim C6 -/

/-- Claim C6 (corrected): a data line whose unit-less `mode` column holds
the non-numeric value `x` makes `process_data` raise — the
`int(parse_decimal(value))` call of mpt.py line 190 has no exception
handler — instead of returning the trimmed string, refuting "never raising
an exception to the caller" for data-line values. -/
theorem c6_counterexample :
    process_data en_US ["", "mode\ttime/s\t", "x\t1.0"] [some 20]
      [FieldVal.str "Auto"] [none] = .error "ValueError" := by
  decide

/-- Claim C6 (amended): header sequence-parameter fields never raise —
they parse to a number on success and fall back to the trimmed original
string on failure (first conjunct) — but a data-line value that fails the
numeric parse makes the data processor raise to the caller (second
conjunct): unit-less columns immediately through the unguarded
`int(parse_decimal(...))`, and columns with a unit through the
`assert isinstance(val, float)` of the uncertainty loop, which rejects the
string fallback stored for them. -/
theorem c6_parse_fallback_and_raise :
    (∀ (loc : NumLocale) (s : String),
      (∃ q, parse_decimal loc s = some q ∧ headerField loc s = .num q) ∨
      (parse_decimal loc s = none ∧ headerField loc s = .str (pyStrip s))) ∧
    (∀ (loc : NumLocale) (names : List String) (line : String)
      (Er : List (Option Rat)) (Ir : List FieldVal)
      (ct : List (Option FieldVal)) (cols : List String)
      (units : List (String × String)) (c v : String),
      buildCU names = .ok (cols, units) → cols.Nodup →
      (c, v) ∈ cols.zip (splitCh '\t' line.data []) →
      parse_decimal loc v = none →
      ∃ e, processDataLine loc cols units Er Ir ct line = .error e) := by
  constructor
  · intro loc s
    unfold headerField
    cases hp : parse_decimal loc s with
    | some q => exact Or.inl ⟨q, rfl, rfl⟩
    | none => exact Or.inr ⟨rfl, rfl⟩
  · intro loc names line Er Ir ct cols units c v hcu hnd hmem hpf
    obtain ⟨hcols_src, _⟩ := buildCU_inv hcu
    have hcols : ∀ c2 ∈ cols, c2 ≠ "control_V_I" := by
      intro c2 hc2
      obtain ⟨rcu, hrt, hre⟩ := hcols_src c2 hc2
      rw [← hre]
      exact column_units_no_control_V_I rcu hrt
    unfold processDataLine
    cases hbv : buildVals loc units (cols.zip (splitCh '\t' line.data [])) with
    | error e => exact ⟨e, rfl⟩
    | ok vals =>
      cases hulk : lookupA c units with
      | none =>
        exfalso
        obtain ⟨e, he⟩ := foldME_error_of_mem hmem
          (fun s0 => valStep_error_unitless hulk hpf s0) []
        unfold buildVals at hbv
        rw [he] at hbv
        cases hbv
      | some u =>
        have hndp : ((cols.zip (splitCh '\t' line.data [])).map
            Prod.fst).Nodup := by
          rw [zip_map_fst]
          exact (List.take_sublist _ _).nodup hnd
        have hbv2 : foldME (valStep loc units) []
            (cols.zip (splitCh '\t' line.data [])) = .ok vals := by
          unfold buildVals at hbv
          exact hbv
        have hfound : lookupA c vals = some (.str (pyStrip v)) :=
          foldME_valStep_found hbv2 hmem hndp hulk hpf
        have hcmem := lookupA_mem hfound
        have hnoctrl : lookupA "control_V_I" vals = none := by
          rw [foldME_valStep_preserve hbv2
            (fun p hp => hcols p.1 (List.of_mem_zip hp).1)]
          rfl
        cases hrs : rangeStage vals Er Ir with
        | error e =>
          refine ⟨e, ?_⟩
          simp only
          rw [hrs]
        | ok er =>
          obtain ⟨e, he⟩ :=
            @devsStage_error_of_str vals units er.1 er.2 c (pyStrip v) u
              hcmem hulk
          refine ⟨e, ?_⟩
          simp only
          rw [hrs]
          simp only
          rw [controlStage_id hnoctrl]
          simp only
          rw [he]

/-- Witness for C6: the unit-less `mode` column with value `x` raises. -/
theorem c6_parse_fallback_and_raise_witness :
    ∃ e, processDataLine en_US ["mode", "time"] [("time", "s")] [some 20]
      [FieldVal.str "Auto"] [none] "x\t1.0" = .error e :=
  c6_parse_fallback_and_raise.2 en_US ["mode", "time/s"] "x\t1.0" [some 20]
    [FieldVal.str "Auto"] [none] ["mode", "time"] [("time", "s")] "mode" "x"
    (by decide) (by decide) (by decide) (by decide)

/-! ## Claim C10 -/

/-- Claim C10 (confirmed): the `control_V_I` renaming branch of
`process_data` is unreachable — the column table maps the raw label
`control/V/mA` to the canonical name `control_VI`, and no table entry
produces `control_V_I`, so no row dictionary ever holds that key — and
consequently the `control_VI` unit can only be `mA` in the output. -/
theorem c10_control_branch_unreachable (loc : NumLocale)
    (lines : List String) (Er : List (Option Rat)) (Ir : List FieldVal)
    (ct : List (Option FieldVal)) (ds : MptDS)
    (h : process_data loc lines Er Ir ct = .ok ds) :
    (∀ row ∈ ds.rows, lookupA "control_V_I" row = none) ∧
    (lookupA "control_VI" ds.units = none ∨
      lookupA "control_VI" ds.units = some "mA") := by
  unfold process_data at h
  cases hnl : pyIndexL lines 1 with
  | error e => rw [hnl] at h; cases h
  | ok nameLine =>
    rw [hnl] at h
    simp only at h
    cases hcu : buildCU ((splitCh '\t' nameLine.data []).dropLast) with
    | error e => rw [hcu] at h; cases h
    | ok cu =>
      rw [hcu] at h
      simp only at h
      obtain ⟨cols, units0⟩ := cu
      obtain ⟨hsrc, husrc⟩ := buildCU_inv hcu
      have hcols : ∀ c ∈ cols, c ≠ "control_V_I" := by
        intro c2 hc2
        obtain ⟨rcu, hrt, hre⟩ := hsrc c2 hc2
        rw [← hre]
        exact column_units_no_control_V_I rcu hrt
      cases hf : foldME (dataLineStep loc cols Er Ir ct) (([], []), units0)
          (lines.drop 2) with
      | error e => rw [hf] at h; cases h
      | ok st =>
        rw [hf] at h
        simp only at h
        cases h
        obtain ⟨hu, hr⟩ := dataFold_inv hcols hf husrc (by simp)
        refine ⟨hr, ?_⟩
        cases hlk : lookupA "control_VI" st.2 with
        | none => exact Or.inl rfl
        | some u =>
          obtain ⟨rcu, hrt, hre⟩ := hu _ (lookupA_mem hlk)
          have h1 : rcu.2.1 = "control_VI" := by rw [hre]
          have h2 := column_units_control_VI_unit rcu hrt h1
          rw [hre] at h2
          simp only [Option.some.injEq] at h2
          exact Or.inr (by rw [h2])

/-- The dataset produced from one data line with a `control/V/mA`
column. -/
def c10ds : MptDS :=
  { cols := ["control_VI", "time"],
    rows := [[("control_VI", FieldVal.num 1),
      ("time", FieldVal.num (mkRat 1 2))]],
    devs := [[("control_VI", mkRat 1 65536), ("time", mkRat 1 2000000)]],
    units := [("control_VI", "mA"), ("time", "s")],
    fulldate := some false, uts := [], settings := none, params := [] }

/-- Witness for C10: a file with a `control/V/mA` column keeps the
canonical name `control_VI` with unit `mA`. -/
theorem c10_control_branch_unreachable_witness :
    (∀ row ∈ c10ds.rows, lookupA "control_V_I" row = none) ∧
    (lookupA "control_VI" c10ds.units = none ∨
      lookupA "control_VI" c10ds.units = some "mA") :=
  c10_control_branch_unreachable en_US
    ["", "control/V/mA\ttime/s\t", "1.0\t0.5"] [some 20]
    [FieldVal.str "Auto"] [none] c10ds (by decide)
